import Mathlib

/-!
Verification of the `ptipython_enhancer.utilities` module (IPyBoost).

The Python module is shallowly embedded: pure helpers become Lean functions,
and every interaction with the outside world (HTTP requests to the package
index, subprocess runs of the package manager, the installed-distribution
registry, the dynamic import probe) is passed in explicitly as an oracle
argument describing what the external call did.  A Python function that can
let an exception escape is modelled with an explicit `PyResult` value, so
"the call raised" is an observable outcome rather than a Lean error.

Python version strings are kept as `String`; the external total order used by
`pkg_resources.parse_version` enters the statements as an arbitrary boolean
comparator together with explicit transitivity/totality hypotheses.  A small
concrete fragment of that order (`pep440le` below) is modelled from the spec
for use on concrete inputs.
-/

namespace IPyBoost

/-- The module-level constant `INSTALL_COMMAND = ['pip', 'install']`. -/
def INSTALL_COMMAND : List String := ["pip", "install"]

/-- Argument passed for `package_name`: Python callers may pass a single
string or a list of strings. -/
inductive Target where
  | single (name : String)
  | many (names : List String)
deriving DecidableEq

/-- A Python runtime value appearing in an argv list.  `subprocess.run` is
handed a Python list whose elements are normally strings, but the code can
also put a whole list into one slot, so the slot type keeps both shapes. -/
inductive PyVal where
  | str (s : String)
  | list (xs : List String)
deriving DecidableEq

/-- Render a `Target` the way a Python f-string would render the value. -/
def targetText : Target → String
  | .single s => s
  | .many l => toString l

/-- View a `Target` as the single Python value it is. -/
def pyValOf : Target → PyVal
  | .single s => .str s
  | .many l => .list l

/-- Embedding of `PackageManager.get_install_command`:
`INSTALL_COMMAND.copy() + package_name` when the argument is a list, and
`INSTALL_COMMAND.copy() + [package_name]` otherwise. -/
def get_install_command : Target → List String
  | .many names => INSTALL_COMMAND ++ names
  | .single name => INSTALL_COMMAND ++ [name]

/-- Outcome of a Python call that may let an exception escape. -/
inductive PyResult (α : Type) where
  | ok (val : α)
  | raised (exn : String)
deriving DecidableEq

/-- What the one `requests.get` call to the package index did: either an
HTTP response (status code plus the keys of the `releases` JSON object) or
an exception raised during the request. -/
inductive HttpOutcome where
  | resp (status : Nat) (releases : List String)
  | raised (exn : String)
deriving DecidableEq

/-- A boolean comparator read as a relation, for use with `insertionSort`. -/
abbrev leProp (le : String → String → Bool) : String → String → Prop :=
  fun a b => le a b = true

/-- Observable result of `PyPIManager.get_pypi_package_versions`: the value
returned (or the exception propagated) together with the console lines the
call printed. -/
structure VersionsOut where
  result : PyResult (List String)
  printed : List String
deriving DecidableEq

/-- Embedding of `PyPIManager.get_pypi_package_versions`.  The comparator
`le` stands for the external `parse_version`-induced order used as the sort
key; `http` is what the `requests.get` call did.  Note the source has no
`try`/`except`: an exception from the request propagates. -/
def get_pypi_package_versions (le : String → String → Bool) (package_name : String)
    (http : HttpOutcome) : VersionsOut :=
  match http with
  | .raised e => { result := .raised e, printed := [] }
  | .resp status releases =>
    if status = 200 then
      { result := .ok (List.insertionSort (leProp le) releases), printed := [] }
    else
      { result := .ok []
        printed := ["Failed to fetch versions for " ++ package_name ++ " from PyPI."] }

/-- Check that `needle` is a leading run of `hay` (character lists). -/
def startsWithChars : List Char → List Char → Bool
  | [], _ => true
  | _ :: _, [] => false
  | a :: as, b :: bs => a == b && startsWithChars as bs

/-- Substring occurrence test on character lists, the semantics of Python's
`needle in hay` for strings. -/
def hasSubChars (needle : List Char) : List Char → Bool
  | [] => startsWithChars needle []
  | c :: t => startsWithChars needle (c :: t) || hasSubChars needle t

/-- Python's `needle in hay` on strings. -/
def strContains (hay needle : String) : Bool :=
  hasSubChars needle.toList hay.toList

/-- The filter used by `get_latest_stable_version`:
`"a" not in v and "b" not in v and "rc" not in v`. -/
def isStable (v : String) : Bool :=
  !(strContains v "a") && !(strContains v "b") && !(strContains v "rc")

/-- Observable result of `PyPIManager.get_latest_stable_version`. -/
structure LatestOut where
  result : PyResult (Option String)
  printed : List String
deriving DecidableEq

/-- Embedding of `PyPIManager.get_latest_stable_version`: calls
`get_pypi_package_versions`, filters out identifiers containing `"a"`,
`"b"` or `"rc"`, and returns the last element of the remainder or `None`. -/
def get_latest_stable_version (le : String → String → Bool) (package_name : String)
    (http : HttpOutcome) : LatestOut :=
  let vOut := get_pypi_package_versions le package_name http
  match vOut.result with
  | .raised e => { result := .raised e, printed := vOut.printed }
  | .ok versions =>
    let stable_versions := versions.filter isStable
    if stable_versions.isEmpty then
      { result := .ok none
        printed := vOut.printed ++ ["No stable versions found for " ++ package_name ++ "."] }
    else
      { result := .ok stable_versions.getLast?, printed := vOut.printed }

/-- What the one `subprocess.run` call inside `install_package` did: a
completed process (exit code, captured stdout, captured stderr), a raised
`CalledProcessError`, or any other raised `Exception`. -/
inductive RunOutcome where
  | completed (exitCode : Int) (stdout : String) (stderr : String)
  | raisedCalledProcessError (msg : String) (errOutput : Option String)
  | raisedOther (msg : String)
deriving DecidableEq

/-- Modelled from the spec: the spec's `InstallResult` data type (success
flag, captured stdout, captured stderr, human-readable message).  No type
of this shape exists in the source; `install_package` is annotated
`-> None`.  It is declared here only so the claim that `install` returns
such a value can be stated against the code. -/
structure InstallResult where
  success : Bool
  capturedOut : String
  capturedErr : String
  message : String
deriving DecidableEq

/-- Observable behaviour of one `PackageManager.install_package` call: the
argv handed to `subprocess.run`, the lines printed to stdout, the lines
printed to stderr, the exception (if any) escaping the call, and the value
returned. -/
structure InstallOut where
  invoked : List PyVal
  printed : List String
  stderrPrinted : List String
  raised : Option String
  returnValue : Option InstallResult
deriving DecidableEq

/-- Embedding of `PackageManager.install_package`.  With `show_output` the
code runs `get_install_command package_name` and prints the captured
stdout/stderr; otherwise it runs the literal `['pip', 'install',
package_name]` (the whole `package_name` value in one argv slot).  All
handlers end in `print`, the function body ends without `return`, and
`check=False` means a completed process never raises, so every branch
returns Python's `None`. -/
def install_package (package_name : Target) (show_output : Bool)
    (run : RunOutcome) : InstallOut :=
  let cmd := (get_install_command package_name).map PyVal.str
  let argv := if show_output then cmd
    else [PyVal.str "pip", PyVal.str "install", pyValOf package_name]
  match run with
  | .completed _exitCode out err =>
    { invoked := argv
      printed := (if show_output then [out] else [])
        ++ [targetText package_name ++ " has been installed successfully."]
      stderrPrinted := if show_output && !(err == "") then [err] else []
      raised := none
      returnValue := none }
  | .raisedCalledProcessError msg errOutput =>
    { invoked := argv
      printed := ["Failed to install " ++ targetText package_name ++ ". Error: " ++ msg
        ++ " Error Output: " ++ errOutput.getD "No error output captured."]
      stderrPrinted := []
      raised := none
      returnValue := none }
  | .raisedOther msg =>
    { invoked := argv
      printed := ["An unexpected error occurred while trying to install "
        ++ targetText package_name ++ ": " ++ msg]
      stderrPrinted := []
      raised := none
      returnValue := none }

/-- Python's `str.lower` restricted to the ASCII range, as a map over the
characters of the string. -/
def py_lower (s : String) : String :=
  List.asString (s.toList.map Char.toLower)

/-- Embedding of `PackageManager.is_package_installed`: membership of the
case-folded name in the set of keys of the ambient installed-package
registry (`pkg_resources.working_set`), passed here as a list of keys. -/
def is_package_installed (installed_packages : List String) (package_name : String) : Bool :=
  installed_packages.contains (py_lower package_name)

/-- An installed distribution's metadata record, as used by
`pkg_resources.get_distribution`. -/
structure Distribution where
  version : String
  location : String
deriving DecidableEq

/-- What the `__import__(package_name)` probe did: imported fine, raised
`ImportError`, or raised some other exception. -/
inductive ImportOutcome where
  | ok
  | importError
  | raisedOther (msg : String)
deriving DecidableEq

/-- The dictionary built by `get_package_info` on the success path. -/
structure PackageInfo where
  version : String
  location : String
  can_import : Bool
deriving DecidableEq

/-- Observable result of `PackageManager.get_package_info`: `.ok (some _)`
for the three-key dictionary, `.ok none` for the empty dictionary `{}`. -/
structure InfoOut where
  result : PyResult (Option PackageInfo)
  printed : List String
deriving DecidableEq

/-- Embedding of `PackageManager.get_package_info`.  `dists` is the ambient
registry consulted by `pkg_resources.get_distribution` (`none` stands for
`DistributionNotFound`); `importProbe` is what `__import__` did.  Only
`DistributionNotFound` and `ImportError` are handled in the source, so any
other exception from the probe propagates. -/
def get_package_info (dists : String → Option Distribution)
    (importProbe : String → ImportOutcome) (package_name : String) : InfoOut :=
  match dists package_name with
  | some d =>
    match importProbe package_name with
    | .ok =>
      { result := .ok (some { version := d.version, location := d.location, can_import := true })
        printed := [] }
    | .importError =>
      { result := .ok (some { version := d.version, location := d.location, can_import := false })
        printed := [] }
    | .raisedOther e => { result := .raised e, printed := [] }
  | none => { result := .ok none, printed := [package_name ++ " is not installed."] }

/-- Embedding of `PackageManager.get_pip_version`:
`pkg_resources.get_distribution('pip').version` with no `try`/`except`, so
a missing `pip` distribution raises `DistributionNotFound`. -/
def get_pip_version (dists : String → Option Distribution) : PyResult String :=
  match dists "pip" with
  | some d => .ok d.version
  | none => .raised "DistributionNotFound"

/-- Argument to module-level `pip_install`: a string or a list of strings. -/
inductive PipTarget where
  | str (s : String)
  | strList (names : List String)
deriving DecidableEq

/-- Observable behaviour of `pip_install`: the `total` the progress bar was
created with, and the package names passed to `install_package`, in order. -/
structure PipInstallOut where
  progressTotal : Nat
  installs : List String
deriving DecidableEq

/-- Embedding of module-level `pip_install`: a bare string is wrapped into a
one-element list, the progress task is sized `len(packages)`, and each
element is installed in order. -/
def pip_install (packages : PipTarget) : PipInstallOut :=
  let pkgs := match packages with
    | .str s => [s]
    | .strList l => l
  { progressTotal := pkgs.length, installs := pkgs }

/-- Modelled from the spec: a leading decimal-digit run of a character list,
with the remainder; helper for the version-order fragment below. -/
def splitNum : List Char → Nat → Nat × List Char
  | [], acc => (acc, [])
  | c :: cs, acc =>
    if c.isDigit then splitNum cs (acc * 10 + (c.toNat - 48)) else (acc, c :: cs)

/-- Modelled from the spec: split a character list on the dot separators of
a version identifier. -/
def splitOnDot (s : List Char) : List (List Char) :=
  s.foldr (fun c acc =>
    if c = '.' then [] :: acc
    else match acc with
      | [] => [[c]]
      | g :: gs => (c :: g) :: gs) [[]]

/-- Modelled from the spec: rank a pre-release tail.  Alpha, beta and
release-candidate tags sort below a plain release (rank 3), in that order,
each followed by its numeric component. -/
def preKey : List Char → List Nat
  | 'r' :: 'c' :: rest => [2, (splitNum rest 0).1]
  | 'a' :: rest => [0, (splitNum rest 0).1]
  | 'b' :: rest => [1, (splitNum rest 0).1]
  | _ => [3, 0]

/-- Modelled from the spec: fold the dot-separated pieces of a version
identifier into a sort key of numeric segments, stopping at the first piece
carrying a pre-release tag. -/
def keyAux : List (List Char) → List Nat
  | [] => [3, 0]
  | p :: ps =>
    let pr := splitNum p 0
    if pr.2.isEmpty then pr.1 :: keyAux ps
    else [pr.1] ++ preKey pr.2

/-- Modelled from the spec: the sort key of a version identifier under the
repository's versioning scheme.  `pkg_resources.parse_version` is an
external dependency, absent from the source tree; this fragment follows the
spec's description (numeric segments compared numerically, pre-release tags
below the corresponding release) and is used to instantiate the order
parameter of the theorems on concrete inputs. -/
def versionKey (s : String) : List Nat :=
  keyAux (splitOnDot s.toList)

/-- Modelled from the spec: a concrete instance of the versioning total
order, by comparison of the sort keys under the lexicographic order. -/
def pep440le (a b : String) : Bool :=
  decide (versionKey a ≤ versionKey b)

/-! ## General lemmas about the embedded operations -/

/-- Converting a valid code point to a character and back is the identity. -/
theorem char_toNat_ofNat_valid (n : Nat) (h : n.isValidChar) : (Char.ofNat n).toNat = n := by
  rw [Char.ofNat, dif_pos h]
  rfl

/-- ASCII lower-casing of a character is idempotent. -/
theorem toLower_idem (c : Char) : c.toLower.toLower = c.toLower := by
  unfold Char.toLower
  by_cases h : 65 ≤ c.toNat ∧ c.toNat ≤ 90
  · rw [if_pos h]
    have hv : ((c.toNat + 32) : Nat).isValidChar := by
      simp [Nat.isValidChar]
      omega
    have ht : (Char.ofNat (c.toNat + 32)).toNat = c.toNat + 32 := by
      rw [Char.ofNat, dif_pos hv]
      rfl
    rw [if_neg]
    rw [ht]
    omega
  · rw [if_neg h, if_neg h]

/-- Mapping `Char.toLower` over a character list twice is the same as once. -/
theorem map_toLower_idem : ∀ l : List Char,
    (l.map Char.toLower).map Char.toLower = l.map Char.toLower
  | [] => rfl
  | c :: t => by simp [map_toLower_idem t, toLower_idem c]

/-- The modelled `str.lower` is idempotent. -/
theorem py_lower_idem (s : String) : py_lower (py_lower s) = py_lower s := by
  show List.asString ((s.toList.map Char.toLower).map Char.toLower)
      = List.asString (s.toList.map Char.toLower)
  rw [map_toLower_idem]

/-- In a chain-ordered list, every element is the last one or relates to it. -/
theorem pw_getLast {α : Type} {R : α → α → Prop} :
    ∀ (l : List α) (x : α), l.Pairwise R → l.getLast? = some x →
      ∀ a ∈ l, a = x ∨ R a x
  | [], x, _, hl => by simp at hl
  | [b], x, _, hl => by
    simp [List.getLast?] at hl
    subst hl
    intro a ha
    simp at ha
    exact Or.inl ha
  | b :: c :: t, x, hp, hl => by
    rw [List.getLast?_cons_cons] at hl
    intro a ha
    rcases List.mem_cons.mp ha with rfl | hmem
    · exact Or.inr (List.rel_of_pairwise_cons hp (List.mem_of_mem_getLast? hl))
    · exact pw_getLast (c :: t) x hp.of_cons hl a hmem

/-- Sorting with a transitive and total boolean comparator yields a list
that is pairwise ordered by it. -/
theorem insertionSort_pairwise (le : String → String → Bool)
    (trans : ∀ a b c, le a b = true → le b c = true → le a c = true)
    (total : ∀ a b, (le a b || le b a) = true) (l : List String) :
    (List.insertionSort (leProp le) l).Pairwise (leProp le) := by
  haveI : IsTotal String (leProp le) := ⟨by
    intro a b
    rcases Bool.or_eq_true_iff.mp (total a b) with h | h
    · exact Or.inl h
    · exact Or.inr h⟩
  haveI : IsTrans String (leProp le) := ⟨fun a b c => trans a b c⟩
  exact List.sorted_insertionSort _ l

/-- The modelled versioning order is transitive. -/
theorem pep440le_trans : ∀ a b c, pep440le a b = true → pep440le b c = true →
    pep440le a c = true := by
  intro a b c h1 h2
  simp only [pep440le, decide_eq_true_eq] at h1 h2 ⊢
  exact le_trans h1 h2

/-- The modelled versioning order is total. -/
theorem pep440le_total : ∀ a b, (pep440le a b || pep440le b a) = true := by
  intro a b
  simp only [pep440le, Bool.or_eq_true, decide_eq_true_eq]
  exact le_total _ _

/-- Reduction of `get_latest_stable_version` on a successful index response. -/
theorem getLatest_200 (le : String → String → Bool) (name : String) (keys : List String) :
    get_latest_stable_version le name (.resp 200 keys)
      = (if ((List.insertionSort (leProp le) keys).filter isStable).isEmpty
        then { result := .ok none
               printed := ["No stable versions found for " ++ name ++ "."] }
        else { result := .ok ((List.insertionSort (leProp le) keys).filter isStable).getLast?
               printed := [] } : LatestOut) := by
  rfl

/-! ## Claim theorems -/

/-- Claim C1, counterexample: `get_install_command` of the single name
`"foo"` is `["pip", "install", "foo"]`, not the two-element list
`["install", "foo"]` the claim states. -/
theorem get_install_command_claim_counterexample :
    get_install_command (.single "foo") = ["pip", "install", "foo"] ∧
    get_install_command (.single "foo") ≠ ["install", "foo"] := by
  exact ⟨rfl, by decide⟩

/-- Claim C1, amended: `get_install_command` maps a single name to
`["pip", "install", name]` and a list of names to `["pip", "install"]`
followed by the names in order; in particular it sends `"foo"` to
`["pip", "install", "foo"]` and `["foo", "bar"]` to
`["pip", "install", "foo", "bar"]`. -/
theorem get_install_command_amended :
    (∀ name : String, get_install_command (.single name) = ["pip", "install", name]) ∧
    (∀ names : List String, get_install_command (.many names) = ["pip", "install"] ++ names) ∧
    get_install_command (.single "foo") = ["pip", "install", "foo"] ∧
    get_install_command (.many ["foo", "bar"]) = ["pip", "install", "foo", "bar"] :=
  ⟨fun _ => rfl, fun _ => rfl, rfl, rfl⟩

/-- Claim C10: `pip_install` of a bare string installs exactly that one
package and sizes the progress bar to 1. -/
theorem pip_install_single_string (s : String) :
    pip_install (.str s) = { progressTotal := 1, installs := [s] } := rfl

/-- Claim C10, witness at a concrete package name. -/
theorem pip_install_single_string_witness :
    pip_install (.str "rich") = { progressTotal := 1, installs := ["rich"] } :=
  pip_install_single_string "rich"

/-- Claim C8: `is_package_installed` depends only on the case-folded name;
in particular it agrees on a name and its lower-cased form, and on `"Foo"`
versus `"foo"`, for every registry. -/
theorem is_package_installed_case_insensitive (reg : List String) (n : String) :
    is_package_installed reg n = is_package_installed reg (py_lower n) ∧
    is_package_installed reg "Foo" = is_package_installed reg "foo" := by
  constructor
  · unfold is_package_installed
    rw [py_lower_idem]
  · unfold is_package_installed
    have h : py_lower "Foo" = py_lower "foo" := by decide
    rw [h]

/-- Claim C8, witness at a concrete registry and name. -/
theorem is_package_installed_case_insensitive_witness :
    is_package_installed ["foo"] "FOO" = is_package_installed ["foo"] (py_lower "FOO") :=
  (is_package_installed_case_insensitive ["foo"] "FOO").1

/-- Claim C4, counterexample: with `show_output = false` and a list target,
the argv handed to the subprocess is `['pip', 'install', <the whole list>]`,
which differs from `get_install_command` of that target. -/
theorem install_argv_counterexample :
    (install_package (.many ["foo", "bar"]) false (.completed 0 "" "")).invoked
      = [PyVal.str "pip", PyVal.str "install", PyVal.list ["foo", "bar"]] ∧
    (install_package (.many ["foo", "bar"]) false (.completed 0 "" "")).invoked
      ≠ (get_install_command (.many ["foo", "bar"])).map PyVal.str := by
  exact ⟨rfl, by decide⟩

/-- Claim C4, amended: the argv passed to the subprocess equals
`get_install_command` of the target whenever `show_output` is true, and
also when it is false and the target is a single name. -/
theorem install_argv_amended :
    (∀ (t : Target) (run : RunOutcome),
      (install_package t true run).invoked = (get_install_command t).map PyVal.str) ∧
    (∀ (n : String) (run : RunOutcome),
      (install_package (.single n) false run).invoked
        = (get_install_command (.single n)).map PyVal.str) := by
  constructor
  · intro t run
    cases run <;> rfl
  · intro n run
    cases run <;> rfl

/-- Claim C2, counterexample: on a completed install subprocess with exit
status 1 and captured stderr `"boom"`, `install_package` returns Python's
`None` — no `InstallResult`, hence no failure flag — and still prints the
success line. -/
theorem install_failure_counterexample :
    (install_package (.single "foo") true (.completed 1 "" "boom")).returnValue = none ∧
    (¬ ∃ r : InstallResult,
        (install_package (.single "foo") true (.completed 1 "" "boom")).returnValue = some r) ∧
    (install_package (.single "foo") true (.completed 1 "" "boom")).printed
      = ["", "foo has been installed successfully."] := by
  refine ⟨rfl, ?_, rfl⟩
  rintro ⟨r, hr⟩
  exact Option.noConfusion hr

/-- Claim C2, amended: for every target and subprocess behaviour,
`install_package` lets no exception escape and returns `None`; when the
process completes and `show_output` is true, a non-empty captured stderr is
printed; an invocation error is caught and reported as an unexpected-error
message. -/
theorem install_failure_amended (t : Target) (so : Bool) (run : RunOutcome) :
    (install_package t so run).raised = none ∧
    (install_package t so run).returnValue = none ∧
    (∀ code out err, run = .completed code out err → so = true → err ≠ "" →
      (install_package t so run).stderrPrinted = [err]) ∧
    (∀ e, run = .raisedOther e →
      (install_package t so run).printed
        = ["An unexpected error occurred while trying to install "
            ++ targetText t ++ ": " ++ e]) := by
  refine ⟨?_, ?_, ?_, ?_⟩
  · cases run <;> rfl
  · cases run <;> rfl
  · rintro code out err rfl rfl herr
    simp [install_package, herr]
  · rintro e rfl
    cases so <;> rfl

/-- Claim C2, witness: the amended statement at a failing concrete run. -/
theorem install_failure_amended_witness :
    (install_package (.single "foo") true (.completed 1 "out" "boom")).raised = none ∧
    (install_package (.single "foo") true (.completed 1 "out" "boom")).stderrPrinted
      = ["boom"] := by
  have h := install_failure_amended (.single "foo") true (.completed 1 "out" "boom")
  exact ⟨h.1, h.2.2.1 1 "out" "boom" rfl rfl (by decide)⟩

/-- Claim C3, counterexample: an exception raised during the HTTP request
propagates out of `get_pypi_package_versions` instead of degrading to an
empty list — the source wraps the request in no handler. -/
theorem listVersions_propagates_counterexample :
    (get_pypi_package_versions pep440le "requests" (.raised "ConnectionError")).result
      = .raised "ConnectionError" ∧
    (get_pypi_package_versions pep440le "requests" (.raised "ConnectionError")).result
      ≠ .ok [] := by
  exact ⟨rfl, by decide⟩

/-- Claim C3, amended: a response with a non-200 status is reported on the
console and degrades to the empty list without raising; an exception raised
by the request itself, however, propagates to the caller. -/
theorem listVersions_non200_amended (le : String → String → Bool) (name : String)
    (status : Nat) (releases : List String) (h : status ≠ 200) :
    (get_pypi_package_versions le name (.resp status releases)).result = .ok [] ∧
    (get_pypi_package_versions le name (.resp status releases)).printed
      = ["Failed to fetch versions for " ++ name ++ " from PyPI."] := by
  simp [get_pypi_package_versions, h]

/-- Claim C3, witness: the amended statement at a 404 response. -/
theorem listVersions_non200_amended_witness :
    (get_pypi_package_versions pep440le "requests" (.resp 404 ["1.0"])).result = .ok [] :=
  (listVersions_non200_amended pep440le "requests" 404 ["1.0"] (by decide)).1

/-- Claim C9, counterexample: when the `pip` distribution metadata is
missing, `get_pip_version` propagates `DistributionNotFound` — the source
has no handler around `pkg_resources.get_distribution('pip')`. -/
theorem get_pip_version_raises_counterexample :
    get_pip_version (fun _ => none) = .raised "DistributionNotFound" ∧
    get_pip_version (fun _ => none) ≠ .ok "" := by
  exact ⟨rfl, by decide⟩

/-- Claim C9, amended: `get_package_info` reports and returns the empty
dictionary when the distribution is missing, and records
`can_import = false` without raising when the import probe fails with
`ImportError`; `get_pip_version` returns the registered version when the
`pip` metadata is present, but propagates `DistributionNotFound` when it is
missing. -/
theorem metadata_queries_amended (dists : String → Option Distribution)
    (importProbe : String → ImportOutcome) (name : String) :
    (dists name = none →
      get_package_info dists importProbe name
        = { result := .ok none, printed := [name ++ " is not installed."] }) ∧
    (∀ d, dists name = some d → importProbe name = .importError →
      get_package_info dists importProbe name
        = { result := .ok (some { version := d.version
                                  location := d.location
                                  can_import := false })
            printed := [] }) ∧
    (∀ d, dists "pip" = some d → get_pip_version dists = .ok d.version) := by
  refine ⟨?_, ?_, ?_⟩
  · intro h
    simp [get_package_info, h]
  · intro d hd hi
    simp [get_package_info, hd, hi]
  · intro d hd
    simp [get_pip_version, hd]

/-- Claim C9, witness: the amended statement at a registry without the
requested package. -/
theorem metadata_queries_amended_witness :
    get_package_info (fun _ => none) (fun _ => .ok) "foo"
      = { result := .ok none, printed := ["foo is not installed."] } :=
  (metadata_queries_amended (fun _ => none) (fun _ => .ok) "foo").1 rfl

/-- A version returned by `get_latest_stable_version` passed the stability
filter. -/
theorem latest_isStable (le : String → String → Bool) (name : String)
    (http : HttpOutcome) (v : String)
    (h : (get_latest_stable_version le name http).result = .ok (some v)) :
    isStable v = true := by
  cases http with
  | raised e => simp [get_latest_stable_version, get_pypi_package_versions] at h
  | resp status keys =>
    by_cases hs : status = 200
    · subst hs
      rw [getLatest_200] at h
      by_cases he : ((List.insertionSort (leProp le) keys).filter isStable).isEmpty
      · rw [if_pos he] at h
        simp at h
      · rw [if_neg he] at h
        have h2 : ((List.insertionSort (leProp le) keys).filter isStable).getLast?
            = some v := by simpa using h
        exact List.of_mem_filter (List.mem_of_mem_getLast? h2)
    · simp [get_latest_stable_version, get_pypi_package_versions, hs] at h

/-- Claim C7: whenever `get_latest_stable_version` returns an identifier
rather than `None`, that identifier contains none of the substrings `"a"`,
`"b"`, `"rc"`. -/
theorem latestStable_no_prerelease (le : String → String → Bool) (name : String)
    (http : HttpOutcome) (v : String)
    (h : (get_latest_stable_version le name http).result = .ok (some v)) :
    strContains v "a" = false ∧ strContains v "b" = false ∧
    strContains v "rc" = false := by
  have hst := latest_isStable le name http v h
  simp only [isStable, Bool.and_eq_true, Bool.not_eq_true'] at hst
  exact ⟨hst.1.1, hst.1.2, hst.2⟩

/-- Claim C7, witness at a concrete response. -/
theorem latestStable_no_prerelease_witness :
    strContains "1.0" "a" = false ∧ strContains "1.0" "b" = false ∧
    strContains "1.0" "rc" = false :=
  latestStable_no_prerelease pep440le "foo" (.resp 200 ["1.0"]) "1.0" (by decide)

/-- Claim C6: on a successful index response the returned version sequence
is pairwise non-decreasing under the versioning order. -/
theorem listVersions_sorted (le : String → String → Bool)
    (trans : ∀ a b c, le a b = true → le b c = true → le a c = true)
    (total : ∀ a b, (le a b || le b a) = true)
    (name : String) (keys vs : List String)
    (h : (get_pypi_package_versions le name (.resp 200 keys)).result = .ok vs) :
    vs.Pairwise (leProp le) := by
  have hv : List.insertionSort (leProp le) keys = vs := by
    simpa [get_pypi_package_versions] using h
  exact hv ▸ insertionSort_pairwise le trans total keys

/-- Claim C6, witness at a concrete response under the modelled order. -/
theorem listVersions_sorted_witness :
    (["1.0", "1.1a1", "1.1"] : List String).Pairwise (leProp pep440le) :=
  listVersions_sorted pep440le pep440le_trans pep440le_total "foo"
    ["1.1", "1.0", "1.1a1"] ["1.0", "1.1a1", "1.1"] (by decide)

/-- Claim C5: on a successful index response, `get_latest_stable_version`
returns `None` exactly when no release identifier passes the stability
filter, and otherwise returns a stable identifier that dominates every
stable identifier under the versioning order; on the releases
`{"1.0", "1.1a1", "1.1"}` it returns `"1.1"`. -/
theorem latestStable_max (le : String → String → Bool)
    (trans : ∀ a b c, le a b = true → le b c = true → le a c = true)
    (total : ∀ a b, (le a b || le b a) = true)
    (name : String) (keys : List String) :
    (((get_latest_stable_version le name (.resp 200 keys)).result = .ok none)
      ↔ keys.filter isStable = []) ∧
    (∀ v, (get_latest_stable_version le name (.resp 200 keys)).result = .ok (some v) →
      v ∈ keys.filter isStable ∧ ∀ w ∈ keys.filter isStable, le w v = true) ∧
    (get_latest_stable_version pep440le "sample" (.resp 200 ["1.0", "1.1a1", "1.1"])).result
      = .ok (some "1.1") := by
  have hperm : ((List.insertionSort (leProp le) keys).filter isStable).Perm
      (keys.filter isStable) :=
    (List.perm_insertionSort (leProp le) keys).filter isStable
  have hpwF : ((List.insertionSort (leProp le) keys).filter isStable).Pairwise (leProp le) :=
    (insertionSort_pairwise le trans total keys).filter isStable
  refine ⟨?_, ?_, by decide⟩
  · rw [getLatest_200]
    by_cases he : ((List.insertionSort (leProp le) keys).filter isStable).isEmpty
    · rw [if_pos he]
      have hnil : (List.insertionSort (leProp le) keys).filter isStable = [] :=
        List.isEmpty_iff.mp he
      have hkeysnil : keys.filter isStable = [] := by
        have hlen := hperm.length_eq
        rw [hnil] at hlen
        exact List.length_eq_zero.mp hlen.symm
      simp [hkeysnil]
    · rw [if_neg he]
      have hne : (List.insertionSort (leProp le) keys).filter isStable ≠ [] :=
        fun hcontra => he (by rw [hcontra]; rfl)
      constructor
      · intro habs
        have habs2 : ((List.insertionSort (leProp le) keys).filter isStable).getLast?
            = none := by simpa using habs
        exact absurd (List.getLast?_eq_none_iff.mp habs2) hne
      · intro hkeys
        exfalso
        apply hne
        have hlen := hperm.length_eq
        rw [hkeys] at hlen
        exact List.length_eq_zero.mp hlen
  · intro v hv
    rw [getLatest_200] at hv
    by_cases he : ((List.insertionSort (leProp le) keys).filter isStable).isEmpty
    · rw [if_pos he] at hv
      simp at hv
    · rw [if_neg he] at hv
      have hgl : ((List.insertionSort (leProp le) keys).filter isStable).getLast?
          = some v := by simpa using hv
      have hmemS : v ∈ (List.insertionSort (leProp le) keys).filter isStable :=
        List.mem_of_mem_getLast? hgl
      refine ⟨hperm.mem_iff.mp hmemS, ?_⟩
      intro w hw
      have hwS : w ∈ (List.insertionSort (leProp le) keys).filter isStable :=
        hperm.mem_iff.mpr hw
      rcases pw_getLast _ v hpwF hgl w hwS with rfl | hrel
      · have hrefl := total w w
        rw [Bool.or_self] at hrefl
        exact hrefl
      · exact hrel

/-- Claim C5, witness: the theorem applied to the modelled versioning order
and the spec scenario. -/
theorem latestStable_max_witness :
    (get_latest_stable_version pep440le "sample" (.resp 200 ["1.0", "1.1a1", "1.1"])).result
      = .ok (some "1.1") :=
  (latestStable_max pep440le pep440le_trans pep440le_total "sample"
    ["1.0", "1.1a1", "1.1"]).2.2

end IPyBoost
